import Mathlib

/-!
Verification development for the moqt wire codec and incremental stream
parser (Rust sources under `src/moqt/`).

The embedding below translates the relevant Rust functions into Lean,
byte for byte of behaviour:

* bytes are `Nat` values (every constructed byte is `< 256`), buffers are
  `List Nat`;
* `Buf` readers become functions from a byte list to an `Except` result
  carrying the decoded value and the number of bytes consumed, the caller
  advancing with `List.drop` — exactly the `(value, length)` convention of
  the Rust `Deserializer` trait;
* `BufMut` writers (`Vec<u8>` in every call site that matters) become
  `Except` results carrying the written byte list; a `Vec` has effectively
  unbounded `remaining_mut`, so the capacity check in `VarInt::serialize`
  can never fire and is not modelled;
* the mutable `MessageParser` becomes a record threaded through explicit
  state-passing functions; the event `VecDeque` is a list, pushed at the
  back, polled at the front.

Types whose defining file is not part of the available sources
(`message/object.rs`, `serde/mod.rs`, `serde/parameters.rs`, the
`Message` enum) are modelled from the specification and carry a
`Modelled from the spec:` doc comment.
-/

/-- Error type of `src/moqt/src/error.rs` (`enum Error`), together with the
two additional variants used by the parser sources (`ErrProtocolViolation`
carrying a reason string, used in `message_parser.rs`, and `ErrParseError`
carrying a parser error code and a reason, used in `subscribe.rs`). -/
inductive Err where
  | varIntBoundsExceeded
  | unexpectedEnd
  | malformedVarInt
  | bufferTooShort
  | duplicateParameter
  | missingParameter
  | invalidMessageType (v : Nat)
  | invalidFilterType (v : Nat)
  | invalidBooleanValue (v : Nat)
  | unsupportedVersion (v : Nat)
  | invalidRole (v : Nat)
  | invalidString
  | protocolViolation (reason : String)
  | parseError (code : Nat) (reason : String)
deriving DecidableEq, Repr

/-- Parser error classification codes (`ParserErrorCode` in
`message_parser.rs`), with their numeric discriminants. -/
inductive ParserErrorCode where
  | noError
  | internalError
  | unauthorized
  | protocolViolation
  | duplicateTrackAlias
  | parameterLengthMismatch
  | goawayTimeout
deriving DecidableEq, Repr

/-- Numeric value of a `ParserErrorCode` as declared in the Rust enum. -/
def ParserErrorCode.toU64 : ParserErrorCode → Nat
  | .noError => 0x0
  | .internalError => 0x1
  | .unauthorized => 0x2
  | .protocolViolation => 0x3
  | .duplicateTrackAlias => 0x4
  | .parameterLengthMismatch => 0x5
  | .goawayTimeout => 0x10

/-- The two big-endian bytes written by `put_u16` (for words below 2^16). -/
def be2 (w : Nat) : List Nat := [w / 256 % 256, w % 256]

/-- The four big-endian bytes written by `put_u32` (for words below 2^32). -/
def be4 (w : Nat) : List Nat :=
  [w / 16777216 % 256, w / 65536 % 256, w / 256 % 256, w % 256]

/-- The eight big-endian bytes written by `put_u64` (for words below 2^64). -/
def be8 (w : Nat) : List Nat :=
  [w / 72057594037927936 % 256, w / 281474976710656 % 256,
   w / 1099511627776 % 256, w / 4294967296 % 256,
   w / 16777216 % 256, w / 65536 % 256, w / 256 % 256, w % 256]

/-- `VarInt::size` from `serde/varint.rs`: the number of bytes needed to
encode the value, selected by the magnitude thresholds 2^6, 2^14, 2^30,
2^62.  The source panics (`unreachable!`) at or above 2^62; that branch is
represented by the out-of-band result `0`. -/
def VarInt.size (x : Nat) : Nat :=
  if x < 64 then 1                          -- 2^6
  else if x < 16384 then 2                  -- 2^14
  else if x < 1073741824 then 4             -- 2^30
  else if x < 4611686018427387904 then 8    -- 2^62
  else 0                                    -- unreachable! in the source

/-- `VarInt::serialize` from `serde/varint.rs`.  The tag bits are combined
with the value by bitwise or in the source (`0b01 << 14 | x` and so on);
because the value is strictly below the tag position in each branch, the
or is the same as addition, written here as addition. -/
def VarInt.serialize (x : Nat) : Except Err (List Nat) :=
  if x < 64 then .ok [x]                                        -- put_u8 x
  else if x < 16384 then .ok (be2 (16384 + x))                  -- 0b01 << 14 | x
  else if x < 1073741824 then .ok (be4 (2147483648 + x))        -- 0b10 << 30 | x
  else if x < 4611686018427387904 then
    .ok (be8 (13835058055282163712 + x))                        -- 0b11 << 62 | x
  else .error .malformedVarInt

/-- `VarInt::from_u64` from `serde/varint.rs`: succeeds iff the value is
below 2^62. -/
def VarInt.fromU64 (x : Nat) : Except Err Nat :=
  if x < 4611686018427387904 then .ok x else .error .varIntBoundsExceeded

/-- `u64::serialize` from `serde/varint.rs`: range-checks through
`VarInt::try_from` and then delegates to `VarInt::serialize`. -/
def u64.serialize (x : Nat) : Except Err (List Nat) :=
  match VarInt.fromU64 x with
  | .error e => .error e
  | .ok v => VarInt.serialize v

/-- `VarInt::deserialize` from `serde/varint.rs`: the two leading bits of
the first byte select the total length 1, 2, 4 or 8; the remaining bits of
the first byte and the following big-endian bytes form the value
(`from_be_bytes` over the tag-cleared buffer). -/
def VarInt.deserialize : List Nat → Except Err (Nat × Nat)
  | [] => .error .unexpectedEnd
  | b0 :: rest =>
    let tag := b0 / 64
    let b := b0 % 64
    if tag = 0 then .ok (b, 1)
    else if tag = 1 then
      match rest with
      | b1 :: _ => .ok (b * 256 + b1, 2)
      | [] => .error .unexpectedEnd
    else if tag = 2 then
      match rest with
      | b1 :: b2 :: b3 :: _ =>
        .ok (b * 16777216 + b1 * 65536 + b2 * 256 + b3, 4)
      | _ => .error .unexpectedEnd
    else
      match rest with
      | b1 :: b2 :: b3 :: b4 :: b5 :: b6 :: b7 :: _ =>
        .ok (b * 72057594037927936 + b1 * 281474976710656 +
             b2 * 1099511627776 + b3 * 4294967296 +
             b4 * 16777216 + b5 * 65536 + b6 * 256 + b7, 8)
      | _ => .error .unexpectedEnd

/-- `u64::deserialize` from `serde/varint.rs` delegates to
`VarInt::deserialize`; `usize::deserialize` is identical. -/
def u64.deserialize (r : List Nat) : Except Err (Nat × Nat) :=
  VarInt.deserialize r

deriving instance DecidableEq for Except

/-- One-byte decodes: a byte below 2^6 carries tag 00 and denotes itself. -/
theorem varint_deserialize_one (x : Nat) (h : x < 64) (tl : List Nat) :
    VarInt.deserialize (x :: tl) = .ok (x, 1) := by
  have h0 : x / 64 = 0 := by omega
  have h1 : x % 64 = x := by omega
  simp [VarInt.deserialize, h0, h1]

/-- Two-byte decodes: the 16-bit word `2^14 + x` written big-endian decodes
back to `x` with length 2, for any `x < 2^14`. -/
theorem varint_deserialize_be2 (x : Nat) (h : x < 16384) (tl : List Nat) :
    VarInt.deserialize (be2 (16384 + x) ++ tl) = .ok (x, 2) := by
  have h0 : (16384 + x) / 256 % 256 / 64 = 1 := by omega
  have h1 : (16384 + x) / 256 % 256 % 64 * 256 + (16384 + x) % 256 = x := by omega
  simp [be2, VarInt.deserialize, h0, h1]

/-- Four-byte decodes: the 32-bit word `2^31 + x` written big-endian decodes
back to `x` with length 4, for any `x < 2^30`. -/
theorem varint_deserialize_be4 (x : Nat) (h : x < 1073741824) (tl : List Nat) :
    VarInt.deserialize (be4 (2147483648 + x) ++ tl) = .ok (x, 4) := by
  have h0 : (2147483648 + x) / 16777216 % 256 / 64 = 2 := by omega
  have h1 : (2147483648 + x) / 16777216 % 256 % 64 * 16777216 +
      (2147483648 + x) / 65536 % 256 * 65536 +
      (2147483648 + x) / 256 % 256 * 256 + (2147483648 + x) % 256 = x := by omega
  simp [be4, VarInt.deserialize, h0, h1]

/-- Eight-byte decodes: the 64-bit word `3·2^62 + x` written big-endian
decodes back to `x` with length 8, for any `x < 2^62`. -/
theorem varint_deserialize_be8 (x : Nat) (h : x < 4611686018427387904) (tl : List Nat) :
    VarInt.deserialize (be8 (13835058055282163712 + x) ++ tl) = .ok (x, 8) := by
  have h0 : (13835058055282163712 + x) / 72057594037927936 % 256 / 64 = 3 := by omega
  have h1 : (13835058055282163712 + x) / 72057594037927936 % 256 % 64 * 72057594037927936 +
      (13835058055282163712 + x) / 281474976710656 % 256 * 281474976710656 +
      (13835058055282163712 + x) / 1099511627776 % 256 * 1099511627776 +
      (13835058055282163712 + x) / 4294967296 % 256 * 4294967296 +
      (13835058055282163712 + x) / 16777216 % 256 * 16777216 +
      (13835058055282163712 + x) / 65536 % 256 * 65536 +
      (13835058055282163712 + x) / 256 % 256 * 256 +
      (13835058055282163712 + x) % 256 = x := by omega
  simp [be8, VarInt.deserialize, h0, h1]

example : u64.serialize 5 = .ok [5] := by decide
example : u64.serialize 16384 = .ok [128, 0, 64, 0] := by decide
example : VarInt.deserialize [128, 0, 64, 0] = .ok (16384, 4) := by decide
example : u64.serialize 4611686018427387904 = .error .varIntBoundsExceeded := by decide

/-- Claim C6: for every value `v < 2^62`, `decode (encode v)` returns
`(v, encoded_length)` where the encoded length is 1, 2, 4 or 8 bytes
selected by the magnitude thresholds 2^6, 2^14, 2^30, 2^62 and equals
`VarInt::size v`; and encoding any u64 value `v ≥ 2^62` fails with the
`VarIntBoundsExceeded` error. -/
theorem varint_roundtrip_and_bounds (v : Nat) :
    (v < 4611686018427387904 →
      ∃ bytes, u64.serialize v = .ok bytes ∧
        VarInt.deserialize bytes = .ok (v, bytes.length) ∧
        bytes.length = VarInt.size v ∧
        bytes.length = (if v < 64 then 1 else if v < 16384 then 2
          else if v < 1073741824 then 4 else 8)) ∧
    (4611686018427387904 ≤ v →
      u64.serialize v = .error .varIntBoundsExceeded) := by
  constructor
  · intro h
    by_cases h1 : v < 64
    · refine ⟨[v], ?_, ?_, ?_, ?_⟩
      · simp [u64.serialize, VarInt.fromU64, VarInt.serialize, h, h1]
      · exact varint_deserialize_one v h1 []
      · simp [VarInt.size, h1]
      · simp [h1]
    · by_cases h2 : v < 16384
      · have hl : (be2 (16384 + v)).length = 2 := rfl
        refine ⟨be2 (16384 + v), ?_, ?_, ?_, ?_⟩
        · simp [u64.serialize, VarInt.fromU64, VarInt.serialize, h, h1, h2]
        · rw [hl]
          simpa using varint_deserialize_be2 v h2 []
        · rw [hl]; simp [VarInt.size, h1, h2]
        · rw [hl]; simp [h1, h2]
      · by_cases h3 : v < 1073741824
        · have hl : (be4 (2147483648 + v)).length = 4 := rfl
          refine ⟨be4 (2147483648 + v), ?_, ?_, ?_, ?_⟩
          · simp [u64.serialize, VarInt.fromU64, VarInt.serialize, h, h1, h2, h3]
          · rw [hl]
            simpa using varint_deserialize_be4 v h3 []
          · rw [hl]; simp [VarInt.size, h1, h2, h3]
          · rw [hl]; simp [h1, h2, h3]
        · have hl : (be8 (13835058055282163712 + v)).length = 8 := rfl
          refine ⟨be8 (13835058055282163712 + v), ?_, ?_, ?_, ?_⟩
          · simp [u64.serialize, VarInt.fromU64, VarInt.serialize, h, h1, h2, h3]
          · rw [hl]
            simpa using varint_deserialize_be8 v h []
          · rw [hl]; simp [VarInt.size, h1, h2, h3, h]
          · rw [hl]; simp [h1, h2, h3]
  · intro h
    have hn : ¬ v < 4611686018427387904 := by omega
    simp [u64.serialize, VarInt.fromU64, hn]

/-- Witness for claim C6, at the concrete inputs 70 (round trip, two-byte
encoding) and 2^62 (encoding failure). -/
theorem varint_roundtrip_and_bounds_witness :
    (∃ bytes, u64.serialize 70 = .ok bytes ∧
        VarInt.deserialize bytes = .ok (70, bytes.length) ∧
        bytes.length = VarInt.size 70 ∧
        bytes.length = (if 70 < 64 then 1 else if 70 < 16384 then 2
          else if 70 < 1073741824 then 4 else 8)) ∧
    u64.serialize 4611686018427387904 = .error .varIntBoundsExceeded :=
  ⟨(varint_roundtrip_and_bounds 70).1 (by norm_num),
   (varint_roundtrip_and_bounds 4611686018427387904).2 (by norm_num)⟩

/-- Spec-side construction for claim C10: the `L`-byte big-endian encoding
of `v` under the length tag belonging to `L` (tag bits 00 / 01 / 10 / 11 in
the top two bits of the first byte), canonical or padded. -/
def paddedEncoding (L v : Nat) : List Nat :=
  if L = 1 then [v]
  else if L = 2 then be2 (16384 + v)
  else if L = 4 then be4 (2147483648 + v)
  else be8 (13835058055282163712 + v)

/-- Claim C10 (implicit): `VarInt::deserialize` chooses the number of bytes
to consume solely from the two leading tag bits and accepts non-canonical
(padded) encodings: for every value `v` and every tag length
`L ∈ {1, 2, 4, 8}` with `L` at least the canonical size of `v`, the
`L`-byte big-endian encoding of `v` under tag `L` decodes successfully to
`(v, L)`. -/
theorem varint_accepts_noncanonical (v L : Nat) (hv : v < 4611686018427387904)
    (hL : L = 1 ∨ L = 2 ∨ L = 4 ∨ L = 8) (hsize : VarInt.size v ≤ L) :
    VarInt.deserialize (paddedEncoding L v) = .ok (v, L) := by
  rcases hL with rfl | rfl | rfl | rfl
  · have hb : v < 64 := by
      unfold VarInt.size at hsize
      split_ifs at hsize <;> omega
    simpa [paddedEncoding] using varint_deserialize_one v hb []
  · have hb : v < 16384 := by
      unfold VarInt.size at hsize
      split_ifs at hsize <;> omega
    simpa [paddedEncoding] using varint_deserialize_be2 v hb []
  · have hb : v < 1073741824 := by
      unfold VarInt.size at hsize
      split_ifs at hsize <;> omega
    simpa [paddedEncoding] using varint_deserialize_be4 v hb []
  · simpa [paddedEncoding] using varint_deserialize_be8 v hv []

/-- Witness for claim C10: the value 5 (canonical size 1) padded into an
8-byte encoding still decodes to `(5, 8)`. -/
theorem varint_accepts_noncanonical_witness :
    VarInt.deserialize (paddedEncoding 8 5) = .ok (5, 8) :=
  varint_accepts_noncanonical 5 8 (by norm_num) (by norm_num) (by decide)

/-- `MessageType` from `message/mod.rs`: the closed enumeration of wire
message discriminants. -/
inductive MessageType where
  | objectStream        -- 0x0
  | objectDatagram      -- 0x1
  | subscribeUpdate     -- 0x2
  | subscribe           -- 0x3
  | subscribeOk         -- 0x4
  | subscribeError      -- 0x5
  | announce            -- 0x6
  | announceOk          -- 0x7
  | announceError       -- 0x8
  | unAnnounce          -- 0x9
  | unSubscribe         -- 0xa
  | subscribeDone       -- 0xb
  | announceCancel      -- 0xc
  | trackStatusRequest  -- 0xd
  | trackStatus         -- 0xe
  | goAway              -- 0x10
  | clientSetup         -- 0x40
  | serverSetup         -- 0x41
  | streamHeaderTrack   -- 0x50
  | streamHeaderGroup   -- 0x51
deriving DecidableEq, Repr

/-- The numeric discriminant of each `MessageType` enum constant, as
declared in `message/mod.rs`. -/
def MessageType.toU64 : MessageType → Nat
  | .objectStream => 0x0
  | .objectDatagram => 0x1
  | .subscribeUpdate => 0x2
  | .subscribe => 0x3
  | .subscribeOk => 0x4
  | .subscribeError => 0x5
  | .announce => 0x6
  | .announceOk => 0x7
  | .announceError => 0x8
  | .unAnnounce => 0x9
  | .unSubscribe => 0xa
  | .subscribeDone => 0xb
  | .announceCancel => 0xc
  | .trackStatusRequest => 0xd
  | .trackStatus => 0xe
  | .goAway => 0x10
  | .clientSetup => 0x40
  | .serverSetup => 0x41
  | .streamHeaderTrack => 0x50
  | .streamHeaderGroup => 0x51

/-- `impl TryFrom<u64> for MessageType` from `message/mod.rs`, match arm
for match arm.  Note that the source has no arm for `0x2`
(`SubscribeUpdate`), so `0x2` falls through to the error case. -/
def MessageType.tryFrom (value : Nat) : Except Err MessageType :=
  match value with
  | 0x0 => .ok .objectStream
  | 0x1 => .ok .objectDatagram
  | 0x3 => .ok .subscribe
  | 0x4 => .ok .subscribeOk
  | 0x5 => .ok .subscribeError
  | 0x6 => .ok .announce
  | 0x7 => .ok .announceOk
  | 0x8 => .ok .announceError
  | 0x9 => .ok .unAnnounce
  | 0xa => .ok .unSubscribe
  | 0xb => .ok .subscribeDone
  | 0xc => .ok .announceCancel
  | 0xd => .ok .trackStatusRequest
  | 0xe => .ok .trackStatus
  | 0x10 => .ok .goAway
  | 0x40 => .ok .clientSetup
  | 0x41 => .ok .serverSetup
  | 0x50 => .ok .streamHeaderTrack
  | 0x51 => .ok .streamHeaderGroup
  | _ => .error (.invalidMessageType value)

/-- `MessageType` decoding (`Decodable` in `message/mod.rs`, used through
`Deserializer` in the parser): a VarInt discriminant followed by
`try_into`.  Returns the type and the number of bytes consumed. -/
def MessageType.deserialize (r : List Nat) : Except Err (MessageType × Nat) :=
  match u64.deserialize r with
  | .error e => .error e
  | .ok (v, l) =>
    match MessageType.tryFrom v with
    | .error e => .error e
    | .ok mt => .ok (mt, l)

/-- Modelled from the spec: `ObjectStatus` from `message/object.rs`, a file
not among the available sources.  The spec gives the enum as
`{Normal, … , Invalid}` with `Normal` the default for status code 0 and
`Invalid` a distinguished fatal value; the intermediate discriminants are
carried abstractly, and every unlisted discriminant maps to `invalid`. -/
inductive ObjectStatus where
  | normal              -- 0x0
  | objectDoesNotExist
  | groupDoesNotExist
  | endOfGroup
  | endOfTrack
  | invalid
deriving DecidableEq, Repr

/-- Modelled from the spec: the `u64 → ObjectStatus` conversion
(`status.into()` in `message_parser.rs`); 0 is `Normal`, unknown
discriminants are `Invalid`. -/
def ObjectStatus.fromU64 : Nat → ObjectStatus
  | 0 => .normal
  | 1 => .objectDoesNotExist
  | 2 => .groupDoesNotExist
  | 3 => .endOfGroup
  | 4 => .endOfTrack
  | _ => .invalid

/-- Modelled from the spec: `ObjectForwardingPreference` from
`message/object.rs` (not among the available sources): the four framing
modes Object, Datagram, Track, Group. -/
inductive ObjectForwardingPreference where
  | object
  | datagram
  | track
  | group
deriving DecidableEq, Repr

/-- Modelled from the spec: `MessageType::get_object_forwarding_preference`
— the forwarding preference is derived deterministically from the
MessageType (ObjectStream→Object, ObjectDatagram→Datagram,
StreamHeaderTrack→Track, StreamHeaderGroup→Group); any other type is an
error.  The parser only calls this on the four object types. -/
def MessageType.getObjectForwardingPreference :
    MessageType → Except Err ObjectForwardingPreference
  | .objectStream => .ok .object
  | .objectDatagram => .ok .datagram
  | .streamHeaderTrack => .ok .track
  | .streamHeaderGroup => .ok .group
  | mt => .error (.invalidMessageType mt.toU64)

/-- Modelled from the spec: `ObjectForwardingPreference::get_message_type`,
the inverse derivation used for follow-on objects on Track/Group streams. -/
def ObjectForwardingPreference.getMessageType :
    ObjectForwardingPreference → MessageType
  | .object => .objectStream
  | .datagram => .objectDatagram
  | .track => .streamHeaderTrack
  | .group => .streamHeaderGroup

/-- `ObjectHeader` from `message/object.rs` as used by the parser: the
object metadata fields, with `object_payload_length` optional. -/
structure ObjectHeader where
  subscribeId : Nat
  trackAlias : Nat
  groupId : Nat
  objectId : Nat
  objectSendOrder : Nat
  objectStatus : ObjectStatus
  objectForwardingPreference : ObjectForwardingPreference
  objectPayloadLength : Option Nat
deriving DecidableEq, Repr

/-- Modelled from the spec: `String::serialize` (in the `serde` module, not
among the available sources): a VarInt length followed by the raw bytes.
Strings are represented as their byte lists; UTF-8 well-formedness is not
modelled (every input used below is plain ASCII). -/
def moqString.serialize (s : List Nat) : Except Err (List Nat) :=
  match u64.serialize s.length with
  | .error e => .error e
  | .ok lenBytes => .ok (lenBytes ++ s)

/-- Modelled from the spec: `String::deserialize` — a VarInt length, then
that many raw bytes; ends-before-length is an unexpected-end error.
Returns the byte list and the number of bytes consumed. -/
def moqString.deserialize (r : List Nat) : Except Err (List Nat × Nat) :=
  match u64.deserialize r with
  | .error e => .error e
  | .ok (len, ll) =>
    let rest := r.drop ll
    if rest.length < len then .error .unexpectedEnd
    else .ok (rest.take len, ll + len)

/-- `FullSequence` from `message/mod.rs`: a (group_id, object_id) pair. -/
structure FullSequence where
  groupId : Nat
  objectId : Nat
deriving DecidableEq, Repr

/-- `FilterType` from `message/mod.rs`. -/
inductive FilterType where
  | latestGroup                                 -- 0x1
  | latestObject                                -- 0x2
  | absoluteStart (start : FullSequence)        -- 0x3
  | absoluteRange (start stop : FullSequence)   -- 0x4
deriving DecidableEq, Repr

/-- `FullSequence` decoding from `message/mod.rs`: two VarInts. -/
def FullSequence.deserialize (r : List Nat) : Except Err (FullSequence × Nat) :=
  match u64.deserialize r with
  | .error e => .error e
  | .ok (g, gl) =>
    match u64.deserialize (r.drop gl) with
    | .error e => .error e
    | .ok (o, ol) => .ok (⟨g, o⟩, gl + ol)

/-- `FilterType` decoding from `message/mod.rs`: a VarInt discriminant in
{1, 2, 3, 4}, then 0, 0, 1 or 2 `FullSequence` values. -/
def FilterType.deserialize (r : List Nat) : Except Err (FilterType × Nat) :=
  match u64.deserialize r with
  | .error e => .error e
  | .ok (v, vl) =>
    match v with
    | 0x1 => .ok (.latestGroup, vl)
    | 0x2 => .ok (.latestObject, vl)
    | 0x3 =>
      match FullSequence.deserialize (r.drop vl) with
      | .error e => .error e
      | .ok (s, sl) => .ok (.absoluteStart s, vl + sl)
    | 0x4 =>
      match FullSequence.deserialize (r.drop vl) with
      | .error e => .error e
      | .ok (s, sl) =>
        match FullSequence.deserialize ((r.drop vl).drop sl) with
        | .error e => .error e
        | .ok (e2, el) => .ok (.absoluteRange s e2, vl + sl + el)
    | _ => .error (.invalidFilterType v)

/-- `FullSequence` encoding from `message/mod.rs`. -/
def FullSequence.serialize (s : FullSequence) : Except Err (List Nat) :=
  match u64.serialize s.groupId with
  | .error e => .error e
  | .ok g =>
    match u64.serialize s.objectId with
    | .error e => .error e
    | .ok o => .ok (g ++ o)

/-- `FilterType` encoding from `message/mod.rs`. -/
def FilterType.serialize : FilterType → Except Err (List Nat)
  | .latestGroup => u64.serialize 0x1
  | .latestObject => u64.serialize 0x2
  | .absoluteStart s =>
    match u64.serialize 0x3 with
    | .error e => .error e
    | .ok d =>
      match s.serialize with
      | .error e => .error e
      | .ok sb => .ok (d ++ sb)
  | .absoluteRange s e2 =>
    match u64.serialize 0x4 with
    | .error e => .error e
    | .ok d =>
      match s.serialize with
      | .error e => .error e
      | .ok sb =>
        match e2.serialize with
        | .error e => .error e
        | .ok eb => .ok (d ++ sb ++ eb)

/-- `AnnounceCancel` from `message/announce_cancel.rs`: a single
track-namespace string (represented as its bytes). -/
structure AnnounceCancel where
  trackNamespace : List Nat
deriving DecidableEq, Repr

/-- `AnnounceCancel::deserialize` from `message/announce_cancel.rs`. -/
def AnnounceCancel.deserialize (r : List Nat) : Except Err (AnnounceCancel × Nat) :=
  match moqString.deserialize r with
  | .error e => .error e
  | .ok (ns, l) => .ok (⟨ns⟩, l)

/-- `AnnounceCancel::serialize` from `message/announce_cancel.rs`. -/
def AnnounceCancel.serialize (m : AnnounceCancel) : Except Err (List Nat) :=
  moqString.serialize m.trackNamespace

/-- `Subscribe` from `message/subscribe.rs` (strings as byte lists). -/
structure Subscribe where
  subscribeId : Nat
  trackAlias : Nat
  trackNamespace : List Nat
  trackName : List Nat
  filterType : FilterType
  authorizationInfo : Option (List Nat)
deriving DecidableEq, Repr

/-- The `ParameterKey::AuthorizationInfo` discriminant (0x2), from
`serde/parameters.rs` via the wire layout in the `subscribe.rs` test. -/
def parameterKeyAuthorizationInfo : Nat := 0x2

/-- The parameter loop inside `Subscribe::deserialize`
(`message/subscribe.rs`): for each of `n` parameters read a key and a
length; fail with `BufferTooShort` if fewer value bytes remain; an
`AuthorizationInfo` key stores the value bytes (rejecting a duplicate with
a ProtocolViolation parse error) and consumes them; the value bytes of any
other key are **not** consumed, exactly as in the source.  Returns the
authorization info and the accumulated length counter `pl`. -/
def subscribeParamsLoop :
    Nat → List Nat → Option (List Nat) → Nat → Except Err (Option (List Nat) × Nat)
  | 0, _, auth, pl => .ok (auth, pl)
  | n + 1, r, auth, pl =>
    match u64.deserialize r with
    | .error e => .error e
    | .ok (key, kl) =>
      match u64.deserialize (r.drop kl) with
      | .error e => .error e
      | .ok (size, sl) =>
        let r2 := (r.drop kl).drop sl
        if r2.length < size then .error .bufferTooShort
        else if key = parameterKeyAuthorizationInfo then
          if auth.isSome then
            .error (.parseError ParserErrorCode.protocolViolation.toU64
              "AUTHORIZATION_INFO parameter appears twice in SUBSCRIBE")
          else
            subscribeParamsLoop n (r2.drop size) (some (r2.take size))
              (pl + kl + sl + size)
        else
          subscribeParamsLoop n r2 auth (pl + kl + sl)

/-- `Subscribe::deserialize` from `message/subscribe.rs`: id, alias,
namespace, name, filter type, then the parameter count and the parameter
loop. -/
def Subscribe.deserialize (r : List Nat) : Except Err (Subscribe × Nat) :=
  match u64.deserialize r with
  | .error e => .error e
  | .ok (subscribeId, sil) =>
    let r1 := r.drop sil
    match u64.deserialize r1 with
    | .error e => .error e
    | .ok (trackAlias, tal) =>
      let r2 := r1.drop tal
      match moqString.deserialize r2 with
      | .error e => .error e
      | .ok (trackNamespace, tnsl) =>
        let r3 := r2.drop tnsl
        match moqString.deserialize r3 with
        | .error e => .error e
        | .ok (trackName, tnl) =>
          let r4 := r3.drop tnl
          match FilterType.deserialize r4 with
          | .error e => .error e
          | .ok (filterType, ftl) =>
            let r5 := r4.drop ftl
            match u64.deserialize r5 with
            | .error e => .error e
            | .ok (numParams, npl) =>
              match subscribeParamsLoop numParams (r5.drop npl) none npl with
              | .error e => .error e
              | .ok (authorizationInfo, pl) =>
                .ok (⟨subscribeId, trackAlias, trackNamespace, trackName,
                      filterType, authorizationInfo⟩,
                     sil + tal + tnsl + tnl + ftl + pl)

/-- Modelled from the spec: `Parameters::serialize`
(`serde/parameters.rs`, not among the available sources): a VarInt count,
then per parameter a VarInt key, a VarInt length and the raw value bytes
(layout fixed by the wire format section of the spec and the `subscribe.rs`
test vector). -/
def parametersSerializeOne (key : Nat) (value : List Nat) : Except Err (List Nat) :=
  match u64.serialize 1 with
  | .error e => .error e
  | .ok cnt =>
    match u64.serialize key with
    | .error e => .error e
    | .ok kb =>
      match u64.serialize value.length with
      | .error e => .error e
      | .ok lb => .ok (cnt ++ kb ++ lb ++ value)

/-- `Subscribe::serialize` from `message/subscribe.rs`: id, alias,
namespace, name, filter type, then — only when `authorization_info` is
present — a one-entry parameter block.  When it is `None` the source
writes nothing at all for the parameter section (not even a zero count). -/
def Subscribe.serialize (m : Subscribe) : Except Err (List Nat) :=
  match u64.serialize m.subscribeId with
  | .error e => .error e
  | .ok a =>
    match u64.serialize m.trackAlias with
    | .error e => .error e
    | .ok b =>
      match moqString.serialize m.trackNamespace with
      | .error e => .error e
      | .ok c =>
        match moqString.serialize m.trackName with
        | .error e => .error e
        | .ok d =>
          match m.filterType.serialize with
          | .error e => .error e
          | .ok f =>
            match m.authorizationInfo with
            | none => .ok (a ++ b ++ c ++ d ++ f)
            | some auth =>
              match parametersSerializeOne parameterKeyAuthorizationInfo auth with
              | .error e => .error e
              | .ok p => .ok (a ++ b ++ c ++ d ++ f ++ p)

/-- Modelled from the spec: the `Message` sum type (not among the available
sources) — every control message is a MessageType tag plus type-specific
fields.  Only the two variants whose per-type codecs are available under
`src/` (`Subscribe`, `AnnounceCancel`) are carried; the claims below only
ever feed these. -/
inductive Message where
  | subscribe (m : Subscribe)
  | announceCancel (m : AnnounceCancel)
deriving DecidableEq, Repr

/-- Modelled from the spec: `Message::deserialize` — decode the MessageType
tag, then the per-type body with that type's codec, returning the message
and the total consumed length.  Control types other than the two modelled
ones decode to an error (they are never fed by the claims below). -/
def Message.deserialize (r : List Nat) : Except Err (Message × Nat) :=
  match MessageType.deserialize r with
  | .error e => .error e
  | .ok (mt, tl) =>
    match mt with
    | .subscribe =>
      match Subscribe.deserialize (r.drop tl) with
      | .error e => .error e
      | .ok (m, l) => .ok (.subscribe m, tl + l)
    | .announceCancel =>
      match AnnounceCancel.deserialize (r.drop tl) with
      | .error e => .error e
      | .ok (m, l) => .ok (.announceCancel m, tl + l)
    | _ => .error (.invalidMessageType mt.toU64)

/-- `MAX_MESSSAGE_HEADER_SIZE` from `message/mod.rs` (name as in the
source): the 2048-byte buffering ceiling for non-OBJECT messages. -/
def MAX_MESSSAGE_HEADER_SIZE : Nat := 2048

/-- `MessageParserEvent` from `message_parser.rs`.  The per-control-message
variants whose payload types are not among the available sources (ClientSetup,
ServerSetup, …) are omitted: the parser source never constructs any
per-control-message variant, and the claims below only need the modelled
ones. -/
inductive MessageParserEvent where
  | parsingError (code : ParserErrorCode) (reason : String)
  | objectMessage (header : ObjectHeader) (payload : List Nat) (isFinal : Bool)
  | subscribeMessage (m : Subscribe)
  | announceCancelMessage (m : AnnounceCancel)
deriving DecidableEq, Repr

/-- `MessageParser` state from `message_parser.rs`.  The event `VecDeque`
is a list with its front at the head; `poll_event` pops the head. -/
structure MessageParser where
  useWebTransport : Bool
  noMoreData : Bool
  parsingError : Bool
  bufferedMessage : List Nat
  objectMetadata : Option ObjectHeader
  payloadLengthRemaining : Nat
  parserEvents : List MessageParserEvent
deriving DecidableEq, Repr

/-- `MessageParser::new`. -/
def MessageParser.new (useWebTransport : Bool) : MessageParser :=
  ⟨useWebTransport, false, false, [], none, 0, []⟩

/-- `MessageParser::parse_error`: report a parse error at most once —
once `parsing_error` is set, further reports are dropped; a report sets
both `no_more_data` and `parsing_error` and queues a `ParsingError`
event. -/
def MessageParser.parseError (s : MessageParser) (code : ParserErrorCode)
    (reason : String) : MessageParser :=
  if s.parsingError then s
  else { s with noMoreData := true, parsingError := true,
                parserEvents := s.parserEvents ++ [.parsingError code reason] }

/-- `MessageParser::object_stream_initialized`. -/
def MessageParser.objectStreamInitialized (s : MessageParser) : Bool :=
  s.objectMetadata.isSome

/-- `MessageParser::object_payload_in_progress`. -/
def MessageParser.objectPayloadInProgress (s : MessageParser) : Bool :=
  match s.objectMetadata with
  | some om =>
    decide (om.objectStatus = ObjectStatus.normal) &&
      (decide (om.objectForwardingPreference = ObjectForwardingPreference.object) ||
       decide (om.objectForwardingPreference = ObjectForwardingPreference.datagram) ||
       decide (s.payloadLengthRemaining > 0))
  | none => false

/-- `MessageParser::parse_object_header`: the object metadata fields read
from the front of the reader `r` (which, as in the source, is the whole
buffered message — the MessageType tag is *not* consumed beforehand);
`group_id` is skipped for StreamHeaderTrack, `object_id` for
StreamHeaderTrack and StreamHeaderGroup, the explicit status for
everything but ObjectStream/ObjectDatagram. -/
def parseObjectHeader (r : List Nat) (mt : MessageType) :
    Except Err (ObjectHeader × Nat) := do
  let (subscribeId, sil) ← u64.deserialize r
  let r1 := r.drop sil
  let (trackAlias, tal) ← u64.deserialize r1
  let r2 := r1.drop tal
  let (groupId, gil) ←
    if mt ≠ MessageType.streamHeaderTrack then u64.deserialize r2
    else Except.ok (0, 0)
  let r3 := r2.drop gil
  let (objectId, oil) ←
    if mt ≠ MessageType.streamHeaderTrack ∧ mt ≠ MessageType.streamHeaderGroup then
      u64.deserialize r3
    else Except.ok (0, 0)
  let r4 := r3.drop oil
  let (objectSendOrder, osol) ← u64.deserialize r4
  let r5 := r4.drop osol
  let (status, osl) ←
    if mt = MessageType.objectStream ∨ mt = MessageType.objectDatagram then
      u64.deserialize r5
    else Except.ok (0, 0)
  let objectForwardingPreference ← mt.getObjectForwardingPreference
  Except.ok (⟨subscribeId, trackAlias, groupId, objectId, objectSendOrder,
    ObjectStatus.fromU64 status, objectForwardingPreference, none⟩,
    sil + tal + gil + oil + osol + osl)

/-- The section of `MessageParser::process_object_payload` after the
per-type continuation fields: the status validation, the FIN-mid-payload
check, and the payload-draw computation.  Takes and returns the
(possibly updated) metadata and remaining-length counter; on error the
counter is unchanged but metadata updates made by the caller persist, as
with the `&mut` parameters of the source. -/
def processObjectPayloadTail (objectHeader : Option ObjectHeader)
    (payloadLengthRemaining : Nat) (r : List Nat) (mt : MessageType)
    (fin : Bool) (totalLen : Nat) : Option ObjectHeader × Nat × Except Err Nat :=
  match objectHeader with
  | none => (none, payloadLengthRemaining, .ok totalLen)
  | some om =>
    if om.objectStatus = ObjectStatus.invalid then
      (some om, payloadLengthRemaining,
       .error (.protocolViolation "Invalid object status"))
    else if om.objectStatus ≠ ObjectStatus.normal then
      if (mt = MessageType.objectStream ∨ mt = MessageType.objectDatagram) ∧
          r.length ≠ 0 then
        (some om, payloadLengthRemaining,
         .error (.protocolViolation "Object with non-normal status has payload"))
      else (some om, payloadLengthRemaining, .ok totalLen)
    else
      let hasLength := om.objectPayloadLength.isSome
      let payloadLength := om.objectPayloadLength.getD 0
      if fin && hasLength && decide (payloadLength > r.length) then
        (some om, payloadLengthRemaining,
         .error (.protocolViolation "Received FIN mid-payload"))
      else
        let receivedCompleteMessage :=
          fin || (hasLength && decide (payloadLength ≤ r.length))
        let payloadToDraw :=
          if receivedCompleteMessage && hasLength && decide (payloadLength < r.length)
          then payloadLength else r.length
        -- The delivery callback here is commented out in the source
        -- (`TODO: visitor_.OnObjectMessage(...)`): no event is queued.
        let newPlr := if hasLength then payloadLength - payloadToDraw else 0
        (some om, newPlr, .ok (totalLen + payloadToDraw))

/-- `MessageParser::process_object_payload`: the per-type continuation
fields (a fresh `group_id` for StreamHeaderTrack; `group_id`, `object_id`,
an explicit `object_payload_length` and — only when that length is zero —
a status code for StreamHeaderGroup), then the common tail. -/
def processObjectPayload (objectHeader : Option ObjectHeader)
    (payloadLengthRemaining : Nat) (r : List Nat) (mt : MessageType)
    (fin : Bool) : Option ObjectHeader × Nat × Except Err Nat :=
  match mt with
  | .streamHeaderTrack =>
    match u64.deserialize r with
    | .error e => (objectHeader, payloadLengthRemaining, .error e)
    | .ok (groupId, gil) =>
      processObjectPayloadTail
        (objectHeader.map fun om => { om with groupId := groupId })
        payloadLengthRemaining (r.drop gil) mt fin gil
  | .streamHeaderGroup =>
    match u64.deserialize r with
    | .error e => (objectHeader, payloadLengthRemaining, .error e)
    | .ok (groupId, gil) =>
      match u64.deserialize (r.drop gil) with
      | .error e => (objectHeader, payloadLengthRemaining, .error e)
      | .ok (objectId, oil) =>
        match u64.deserialize ((r.drop gil).drop oil) with
        | .error e => (objectHeader, payloadLengthRemaining, .error e)
        | .ok (objectPayloadLength, opl) =>
          let r3 := ((r.drop gil).drop oil).drop opl
          match (if objectPayloadLength = 0 then u64.deserialize r3
                 else Except.ok (0, 0)) with
          | .error e => (objectHeader, payloadLengthRemaining, .error e)
          | .ok (status, sl) =>
            processObjectPayloadTail
              (objectHeader.map fun om =>
                { om with groupId := groupId, objectId := objectId,
                          objectPayloadLength := some objectPayloadLength,
                          objectStatus := ObjectStatus.fromU64 status })
              payloadLengthRemaining (r3.drop sl) mt fin (gil + oil + opl + sl)
  | _ => processObjectPayloadTail objectHeader payloadLengthRemaining r mt fin 0

/-- The tail of `MessageParser::process_object` after the optional header
parse: build the payload reader at the processed offset, run
`process_object_payload`, commit its metadata/counter updates, and map a
ProtocolViolation payload error to a `parse_error` report. -/
def MessageParser.processObjectRest (s : MessageParser) (processedData : Nat)
    (mt : MessageType) (fin : Bool) : MessageParser × Except Err Nat :=
  let payloadReader := s.bufferedMessage.drop processedData
  match processObjectPayload s.objectMetadata s.payloadLengthRemaining
      payloadReader mt fin with
  | (newMeta, newPlr, res) =>
    let s2 := { s with objectMetadata := newMeta, payloadLengthRemaining := newPlr }
    match res with
    | .ok prl => (s2, .ok (processedData + prl))
    | .error e =>
      match e with
      | .protocolViolation reason =>
        (s2.parseError .protocolViolation reason, .error e)
      | _ => (s2, .error e)

/-- `MessageParser::process_object`: parse the object header first when the
stream is not yet initialized (the reader starts at the *front* of the
buffered message — the MessageType tag is not skipped, exactly as in the
source), then process the payload.  The source's
`assert!(!self.object_payload_in_progress())` is a panic that is
unreachable from `process_data` and is not modelled. -/
def MessageParser.processObject (s : MessageParser) (mt : MessageType)
    (fin : Bool) : MessageParser × Except Err Nat :=
  if s.objectStreamInitialized then s.processObjectRest 0 mt fin
  else
    match parseObjectHeader s.bufferedMessage mt with
    | .error e => (s, .error e)
    | .ok (om, obl) =>
      MessageParser.processObjectRest { s with objectMetadata := some om } obl mt fin

/-- The tail of `MessageParser::process_message` for a fresh message: peek
a MessageType from the front of the buffer (without consuming it);
OBJECT_DATAGRAM on a stream is a fatal ProtocolViolation; the three
stream object types enter object parsing; every other recognized type is
decoded whole by `Message::deserialize` — whose result is discarded, the
`Ok` branch queueing **no** event, exactly as in the source. -/
def MessageParser.processMessageTail (s : MessageParser) (fin : Bool) :
    MessageParser × Except Err Nat :=
  match MessageType.deserialize s.bufferedMessage with
  | .error e => (s, .error e)
  | .ok (messageType, _) =>
    if messageType = MessageType.objectDatagram then
      (s.parseError .protocolViolation "Received OBJECT_DATAGRAM on strea",
       .error (.invalidMessageType MessageType.objectDatagram.toU64))
    else if messageType = MessageType.objectStream ∨
        messageType = MessageType.streamHeaderTrack ∨
        messageType = MessageType.streamHeaderGroup then
      s.processObject messageType fin
    else
      match Message.deserialize s.bufferedMessage with
      | .error e => (s, .error e)
      | .ok (_, messageLen) => (s, .ok messageLen)

/-- `MessageParser::process_message`: a follow-on object on an initialized
stream with no payload in progress re-enters object parsing under the
established forwarding preference; otherwise the fresh-message tail runs. -/
def MessageParser.processMessage (s : MessageParser) (fin : Bool) :
    MessageParser × Except Err Nat :=
  match s.objectMetadata with
  | some om =>
    if s.objectPayloadInProgress then s.processMessageTail fin
    else s.processObject om.objectForwardingPreference.getMessageType fin
  | none => s.processMessageTail fin

/-- The `while self.buffered_message.has_remaining()` loop of
`process_data`, with an explicit fuel argument (instantiated with one more
than the buffered length at entry, which suffices: every successful
iteration consumes at least one byte).  An `Ok` consumes the returned
length; an `Err` breaks, first checking the 2048-byte buffering ceiling
(fatal InternalError) and then `fin` (fatal ProtocolViolation). -/
def MessageParser.parseLoop (fin : Bool) : Nat → MessageParser → MessageParser
  | 0, s => s
  | fuel + 1, s =>
    if s.bufferedMessage.isEmpty then s
    else
      match s.processMessage fin with
      | (s1, .ok messageLen) =>
        MessageParser.parseLoop fin fuel
          { s1 with bufferedMessage := s1.bufferedMessage.drop messageLen }
      | (s1, .error _) =>
        if s1.bufferedMessage.length > MAX_MESSSAGE_HEADER_SIZE then
          s1.parseError .internalError "Cannot parse non-OBJECT messages > 2KB"
        else if fin then
          s1.parseError .protocolViolation "FIN after incomplete message"
        else s1

/-- The part of `process_data` after the early-fin checks: append the chunk
to the accumulator; if an object payload is in progress, deliver payload
bytes (all of them for an unknown length, closing the object on `fin`; a
non-final chunk when fewer than the remaining length are buffered; or
exactly the remaining length as a final chunk, then fall through to the
message loop); otherwise run the message loop. -/
def MessageParser.processDataBody (s : MessageParser) (buf : List Nat)
    (fin : Bool) : MessageParser :=
  let s := { s with bufferedMessage := s.bufferedMessage ++ buf }
  if s.objectPayloadInProgress then
    match s.objectMetadata with
    | some om =>
      if om.objectPayloadLength.isNone then
        let s1 := { s with
          parserEvents := s.parserEvents ++ [.objectMessage om s.bufferedMessage fin],
          bufferedMessage := [] }
        if fin then { s1 with objectMetadata := none } else s1
      else if decide (s.bufferedMessage.length < s.payloadLengthRemaining) then
        { s with
          payloadLengthRemaining := s.payloadLengthRemaining - s.bufferedMessage.length,
          parserEvents := s.parserEvents ++ [.objectMessage om s.bufferedMessage false],
          bufferedMessage := [] }
      else
        let s1 := { s with
          parserEvents := s.parserEvents ++
            [.objectMessage om (s.bufferedMessage.take s.payloadLengthRemaining) true],
          bufferedMessage := s.bufferedMessage.drop s.payloadLengthRemaining,
          payloadLengthRemaining := 0 }
        MessageParser.parseLoop fin (s1.bufferedMessage.length + 1) s1
    | none => MessageParser.parseLoop fin (s.bufferedMessage.length + 1) s
  else MessageParser.parseLoop fin (s.bufferedMessage.length + 1) s

/-- `MessageParser::process_data` from `message_parser.rs`.  When called
after `no_more_data`, the source reports a "Data after end of stream"
ProtocolViolation but — with no `return` statement — then continues to
process the new bytes; that control flow is preserved here.  On `fin`, the
stream is marked ended and the two early-fin violations (ending mid
OBJECT payload, ending mid message) are checked before the chunk is
appended. -/
def MessageParser.processData (s : MessageParser) (buf : List Nat)
    (fin : Bool) : MessageParser :=
  let s := if s.noMoreData then
    s.parseError .protocolViolation "Data after end of stream" else s
  if fin then
    let s := { s with noMoreData := true }
    if s.objectPayloadInProgress && decide (s.payloadLengthRemaining > buf.length) then
      s.parseError .protocolViolation "End of stream before complete OBJECT PAYLOAD"
    else if (!s.bufferedMessage.isEmpty) && buf.isEmpty then
      s.parseError .protocolViolation "End of stream before complete message"
    else s.processDataBody buf fin
  else s.processDataBody buf fin

/-- `MessageParser::process_datagram` from `message_parser.rs`, verbatim:
the body is a stub that ignores both arguments and returns an empty byte
string (`Bytes::new()`); the object-metadata parameter is taken by
immutable reference and is never written. -/
def MessageParser.processDatagram (_r : List Nat)
    (_objectMetadata : ObjectHeader) : List Nat := []

/-- `MessageParser::poll_event`: pop the oldest queued event, if any. -/
def MessageParser.pollEvent (s : MessageParser) :
    Option MessageParserEvent × MessageParser :=
  match s.parserEvents with
  | [] => (none, s)
  | e :: rest => (some e, { s with parserEvents := rest })

/-- Run a sequence of `process_data` calls, each a (chunk, fin) pair,
against a parser state. -/
def MessageParser.runCalls : MessageParser → List (List Nat × Bool) → MessageParser
  | s, [] => s
  | s, (buf, fin) :: rest => MessageParser.runCalls (s.processData buf fin) rest

/-- Claim C1 (evaluated at the failing input): the complete ObjectStream
message `[0, 0, 0, 0, 0, 0, 0xAA]` fed whole with `fin` produces no events
at all — the whole-message object delivery inside
`process_object_payload` is commented out (`TODO: visitor_`) in the source
— while the same bytes fed one per call produce an `ObjectMessage` event
through the payload-in-progress path of `process_data`.  The two decoded
event sequences therefore differ, refuting the chunked-reassembly
equivalence as stated. -/
theorem chunked_vs_whole_event_divergence :
    (MessageParser.runCalls (MessageParser.new true)
        [([0, 0, 0, 0, 0, 0, 0xAA], true)]).parserEvents = [] ∧
    (MessageParser.runCalls (MessageParser.new true)
        [([0], false), ([0], false), ([0], false), ([0], false), ([0], false),
         ([0], false), ([0xAA], true)]).parserEvents =
      [.objectMessage ⟨0, 0, 0, 0, 0, .normal, .object, none⟩ [0xAA] true] := by
  decide

/-- Claim C2 (evaluated at the failing input): the five bytes
`0x0c 0x03 'f' 'o' 'o'` are a complete, recognized AnnounceCancel control
message (its codec decodes them, consuming all five), and `process_data`
consumes them (the accumulator is left empty) — yet the event queue stays
empty: the `Ok` branch of `process_message` discards the decoded message
and never queues the typed event, so `poll_event` has nothing to return. -/
theorem control_message_consumed_without_event :
    Message.deserialize [0x0c, 0x03, 0x66, 0x6f, 0x6f] =
      .ok (.announceCancel ⟨[0x66, 0x6f, 0x6f]⟩, 5) ∧
    (MessageParser.runCalls (MessageParser.new true)
        [([0x0c, 0x03, 0x66, 0x6f, 0x6f], true)]).parserEvents = [] ∧
    (MessageParser.runCalls (MessageParser.new true)
        [([0x0c, 0x03, 0x66, 0x6f, 0x6f], true)]).bufferedMessage = [] := by
  decide

/-- Claim C3 (evaluated at the failing input): after a complete message
with `fin` the parser is terminated, and the next call is indeed reported
as a "Data after end of stream" ProtocolViolation — but, the source having
no `return` after that report, the new bytes are still parsed (an
ObjectStream header in call 2) and a later call still queues an
`ObjectMessage` event (call 3), contradicting "no further events are
produced". -/
theorem events_queued_after_termination :
    (MessageParser.runCalls (MessageParser.new true)
        [([0x0c, 0x03, 0x66, 0x6f, 0x6f], true)]).noMoreData = true ∧
    (MessageParser.runCalls (MessageParser.new true)
        [([0x0c, 0x03, 0x66, 0x6f, 0x6f], true), ([0, 0, 0, 0, 0, 0], false),
         ([0xAA], false)]).parserEvents =
      [.parsingError .protocolViolation "Data after end of stream",
       .objectMessage ⟨0, 0, 0, 0, 0, .normal, .object, none⟩ [0xAA] false] := by
  decide

/-- Claim C5: a StreamHeaderGroup object declaring
`object_payload_length = 10` with only 5 payload bytes delivered when
`fin` arrives produces exactly one fatal ProtocolViolation ParsingError
and no object-complete event, in both arrangements: `fin` in the same
`process_data` call as the object header ("Received FIN mid-payload",
raised inside `process_object_payload` before the generic end-of-stream
handling), and `fin` in a later call ("End of stream before complete
OBJECT PAYLOAD", raised by the early-fin check).  In both cases the
parser is terminated. -/
theorem truncated_group_object_fin_violation :
    ((MessageParser.runCalls (MessageParser.new true)
        [([0x40, 0x51, 7, 8, 9, 5, 6, 10, 1, 2, 3, 4, 5], true)]).parserEvents =
      [.parsingError .protocolViolation "Received FIN mid-payload"] ∧
     (MessageParser.runCalls (MessageParser.new true)
        [([0x40, 0x51, 7, 8, 9, 5, 6, 10, 1, 2, 3, 4, 5], true)]).noMoreData = true) ∧
    ((MessageParser.runCalls (MessageParser.new true)
        [([0x40, 0x51, 7, 8, 9, 5, 6, 10, 1, 2, 3, 4, 5], false),
         ([], true)]).parserEvents =
      [.parsingError .protocolViolation "End of stream before complete OBJECT PAYLOAD"] ∧
     (MessageParser.runCalls (MessageParser.new true)
        [([0x40, 0x51, 7, 8, 9, 5, 6, 10, 1, 2, 3, 4, 5], false),
         ([], true)]).noMoreData = true) := by
  decide

/-- Claim C7 (evaluated at the failing input): the enum declares
`SubscribeUpdate = 0x2` but `TryFrom<u64>` has no arm for `0x2`, so the
discriminant `0x2` fails to decode with an invalid-message-type error
(decode of the byte `0x02` likewise), while the neighbouring listed
discriminant `0x3` decodes to Subscribe as specified. -/
theorem subscribe_update_discriminant_rejected :
    MessageType.toU64 .subscribeUpdate = 2 ∧
    MessageType.tryFrom 2 = .error (.invalidMessageType 2) ∧
    MessageType.deserialize [0x2] = .error (.invalidMessageType 2) ∧
    MessageType.tryFrom 3 = .ok .subscribe := by
  decide

/-- Claim C8 (evaluated at the failing input): a Subscribe with
`authorization_info = None` serializes without any parameter count, so
deserializing its own encoding fails with an unexpected-end error —
encode→decode does not even succeed, let alone reproduce the bytes.  For
contrast, the same message with `authorization_info = Some "bar"` (the
configuration exercised by the source's own test) round-trips exactly. -/
theorem subscribe_encode_decode_fails_without_auth :
    Subscribe.serialize ⟨1, 2, [102, 111, 111], [97, 98, 99, 100],
        .latestGroup, none⟩ =
      .ok [1, 2, 3, 102, 111, 111, 4, 97, 98, 99, 100, 1] ∧
    Subscribe.deserialize [1, 2, 3, 102, 111, 111, 4, 97, 98, 99, 100, 1] =
      .error .unexpectedEnd ∧
    Subscribe.serialize ⟨1, 2, [102, 111, 111], [97, 98, 99, 100],
        .absoluteStart ⟨4, 1⟩, some [98, 97, 114]⟩ =
      .ok [1, 2, 3, 102, 111, 111, 4, 97, 98, 99, 100, 3, 4, 1, 1, 2, 3, 98, 97, 114] ∧
    Subscribe.deserialize
        [1, 2, 3, 102, 111, 111, 4, 97, 98, 99, 100, 3, 4, 1, 1, 2, 3, 98, 97, 114] =
      .ok (⟨1, 2, [102, 111, 111], [97, 98, 99, 100],
        .absoluteStart ⟨4, 1⟩, some [98, 97, 114]⟩, 20) := by
  decide

/-- Claim C9 (evaluated at the failing input): `process_datagram` is a
stub — for every input buffer and metadata argument it returns the empty
byte string, decodes nothing, and (taking the metadata by immutable
reference) can never report an object header, contradicting the
one-header-plus-payload contract. -/
theorem process_datagram_returns_nothing (r : List Nat) (om : ObjectHeader) :
    MessageParser.processDatagram r om = [] := rfl

/-- Whether an event is a `ParsingError` report. -/
def MessageParserEvent.isParsingErrorEvent : MessageParserEvent → Bool
  | .parsingError _ _ => true
  | _ => false

/-- The number of `ParsingError` events in an event list. -/
def errCount (evs : List MessageParserEvent) : Nat :=
  (evs.filter MessageParserEvent.isParsingErrorEvent).length

/-- Parser-lifetime invariant: the queued `ParsingError` events are
counted exactly by the `parsing_error` flag, and a reported error has
terminated the stream. -/
def ParserErrInv (s : MessageParser) : Prop :=
  errCount s.parserEvents = (if s.parsingError then 1 else 0) ∧
  (s.parsingError = true → s.noMoreData = true)

theorem errCount_append_err (evs : List MessageParserEvent)
    (c : ParserErrorCode) (m : String) :
    errCount (evs ++ [.parsingError c m]) = errCount evs + 1 := by
  simp [errCount, MessageParserEvent.isParsingErrorEvent]

theorem errCount_append_obj (evs : List MessageParserEvent)
    (om : ObjectHeader) (p : List Nat) (f : Bool) :
    errCount (evs ++ [.objectMessage om p f]) = errCount evs := by
  simp [errCount, MessageParserEvent.isParsingErrorEvent]

/-- The invariant depends only on the event queue and the two flags. -/
theorem inv_of_fields (s t : MessageParser)
    (he : t.parserEvents = s.parserEvents)
    (hp : t.parsingError = s.parsingError)
    (hn : t.noMoreData = s.noMoreData)
    (h : ParserErrInv s) : ParserErrInv t := by
  unfold ParserErrInv at h ⊢
  rw [he, hp, hn]
  exact h

theorem parseError_inv (s : MessageParser) (c : ParserErrorCode) (m : String)
    (h : ParserErrInv s) : ParserErrInv (s.parseError c m) := by
  unfold MessageParser.parseError
  by_cases hp : s.parsingError
  · simp [hp]
    exact h
  · simp [hp]
    unfold ParserErrInv at h ⊢
    simp [errCount_append_err]
    simp [hp] at h
    omega

theorem processObjectRest_inv (s : MessageParser) (pd : Nat) (mt : MessageType)
    (fin : Bool) (h : ParserErrInv s) :
    ParserErrInv (s.processObjectRest pd mt fin).1 := by
  unfold MessageParser.processObjectRest
  rcases hq : processObjectPayload s.objectMetadata s.payloadLengthRemaining
      (s.bufferedMessage.drop pd) mt fin with ⟨nm, np, res⟩
  simp only [hq]
  have h2 : ParserErrInv
      { s with objectMetadata := nm, payloadLengthRemaining := np } :=
    inv_of_fields s _ rfl rfl rfl h
  rcases res with e | prl
  · cases e <;> simp only [] <;> first
      | exact h2
      | exact parseError_inv _ _ _ h2
  · simpa using h2

theorem processObject_inv (s : MessageParser) (mt : MessageType) (fin : Bool)
    (h : ParserErrInv s) : ParserErrInv (s.processObject mt fin).1 := by
  unfold MessageParser.processObject
  by_cases hi : s.objectStreamInitialized
  · simp [hi]
    exact processObjectRest_inv s 0 mt fin h
  · simp [hi]
    rcases hph : parseObjectHeader s.bufferedMessage mt with e | ⟨om, obl⟩
    · simp only [hph]
      exact h
    · simp only [hph]
      exact processObjectRest_inv _ obl mt fin (inv_of_fields s _ rfl rfl rfl h)

theorem processMessageTail_inv (s : MessageParser) (fin : Bool)
    (h : ParserErrInv s) : ParserErrInv (s.processMessageTail fin).1 := by
  unfold MessageParser.processMessageTail
  rcases hmt : MessageType.deserialize s.bufferedMessage with e | ⟨messageType, l⟩
  · simp only [hmt]
    exact h
  · simp only [hmt]
    by_cases hd : messageType = MessageType.objectDatagram
    · simp [hd]
      exact parseError_inv _ _ _ h
    · simp [hd]
      by_cases ho : messageType = MessageType.objectStream ∨
          messageType = MessageType.streamHeaderTrack ∨
          messageType = MessageType.streamHeaderGroup
      · simp [ho]
        exact processObject_inv s messageType fin h
      · simp [ho]
        rcases hmd : Message.deserialize s.bufferedMessage with e | ⟨m, ml⟩
        · simp only [hmd]
          exact h
        · simp only [hmd]
          exact h

theorem processMessage_inv (s : MessageParser) (fin : Bool)
    (h : ParserErrInv s) : ParserErrInv (s.processMessage fin).1 := by
  unfold MessageParser.processMessage
  rcases hm : s.objectMetadata with _ | om
  · exact processMessageTail_inv s fin h
  · by_cases hp : s.objectPayloadInProgress
    · simp [hp]
      exact processMessageTail_inv s fin h
    · simp [hp]
      exact processObject_inv s _ fin h

theorem parseLoop_inv (fin : Bool) (fuel : Nat) :
    ∀ s : MessageParser, ParserErrInv s → ParserErrInv (MessageParser.parseLoop fin fuel s) := by
  induction fuel with
  | zero => intro s h; exact h
  | succ n ih =>
    intro s h
    unfold MessageParser.parseLoop
    split
    · exact h
    · split
      · rename_i s1 messageLen heq
        have h1 : ParserErrInv s1 := by
          have hv := processMessage_inv s fin h
          rw [heq] at hv
          exact hv
        exact ih _ (inv_of_fields s1 _ rfl rfl rfl h1)
      · rename_i s1 e heq
        have h1 : ParserErrInv s1 := by
          have hv := processMessage_inv s fin h
          rw [heq] at hv
          exact hv
        split
        · exact parseError_inv _ _ _ h1
        · split
          · exact parseError_inv _ _ _ h1
          · exact h1

/-- The invariant survives queueing one `ObjectMessage` event. -/
theorem inv_push_obj (s t : MessageParser) (om : ObjectHeader) (p : List Nat)
    (f : Bool)
    (he : t.parserEvents = s.parserEvents ++ [.objectMessage om p f])
    (hp : t.parsingError = s.parsingError)
    (hn : t.noMoreData = s.noMoreData)
    (h : ParserErrInv s) : ParserErrInv t := by
  unfold ParserErrInv at h ⊢
  rw [he, hp, hn, errCount_append_obj]
  exact h

theorem processDataBody_inv (s : MessageParser) (buf : List Nat) (fin : Bool)
    (h : ParserErrInv s) : ParserErrInv (s.processDataBody buf fin) := by
  simp only [MessageParser.processDataBody]
  have hb : ParserErrInv { s with bufferedMessage := s.bufferedMessage ++ buf } :=
    inv_of_fields s _ rfl rfl rfl h
  split
  · split
    · split
      · split
        · exact inv_push_obj _ _ _ _ _ rfl rfl rfl hb
        · exact inv_push_obj _ _ _ _ _ rfl rfl rfl hb
      · split
        · exact inv_push_obj _ _ _ _ _ rfl rfl rfl hb
        · exact parseLoop_inv _ _ _ (inv_push_obj _ _ _ _ _ rfl rfl rfl hb)
    · exact parseLoop_inv _ _ _ hb
  · exact parseLoop_inv _ _ _ hb

theorem processData_inv (s : MessageParser) (buf : List Nat) (fin : Bool)
    (h : ParserErrInv s) : ParserErrInv (s.processData buf fin) := by
  simp only [MessageParser.processData]
  have h0 : ParserErrInv (if s.noMoreData then
      s.parseError .protocolViolation "Data after end of stream" else s) := by
    split
    · exact parseError_inv _ _ _ h
    · exact h
  set s0 := (if s.noMoreData then
      s.parseError .protocolViolation "Data after end of stream" else s) with hs0
  have h1 : ParserErrInv { s0 with noMoreData := true } := by
    unfold ParserErrInv at h0 ⊢
    exact ⟨h0.1, fun _ => rfl⟩
  split
  · split
    · exact parseError_inv _ _ _ h1
    · split
      · exact parseError_inv _ _ _ h1
      · exact processDataBody_inv _ buf fin h1
  · exact processDataBody_inv _ buf fin h0

theorem runCalls_inv (calls : List (List Nat × Bool)) :
    ∀ s : MessageParser, ParserErrInv s →
      ParserErrInv (MessageParser.runCalls s calls) := by
  induction calls with
  | nil => intro s h; exact h
  | cons c rest ih =>
    intro s h
    rcases c with ⟨buf, fin⟩
    exact ih _ (processData_inv s buf fin h)

/-- Claim C4: over the whole lifetime of a MessageParser — any sequence of
`process_data` calls on a fresh parser — at most one ParsingError event is
ever queued; when one has been queued the parser is terminated
(`no_more_data`), and every later violation on the same parser is
suppressed by the `parsing_error` flag rather than re-reported, which is
exactly what the global bound of one expresses. -/
theorem at_most_one_parsing_error (wt : Bool) (calls : List (List Nat × Bool)) :
    errCount (MessageParser.runCalls (MessageParser.new wt) calls).parserEvents ≤ 1 ∧
    (1 ≤ errCount (MessageParser.runCalls (MessageParser.new wt) calls).parserEvents →
      (MessageParser.runCalls (MessageParser.new wt) calls).noMoreData = true) := by
  have hinit : ParserErrInv (MessageParser.new wt) := by
    constructor
    · simp [MessageParser.new, errCount]
    · intro hc
      simp [MessageParser.new] at hc
  have h := runCalls_inv calls (MessageParser.new wt) hinit
  unfold ParserErrInv at h
  rcases h with ⟨h1, h2⟩
  by_cases hp : (MessageParser.runCalls (MessageParser.new wt) calls).parsingError
  · simp [hp] at h1
    constructor
    · omega
    · intro _
      exact h2 hp
  · simp [hp] at h1
    constructor
    · omega
    · intro hc
      omega

/-- Witness for claim C4 at a concrete call sequence that provokes
multiple violations (data after end of stream, repeatedly). -/
theorem at_most_one_parsing_error_witness :
    errCount (MessageParser.runCalls (MessageParser.new true)
      [([0x0c, 0x03, 0x66, 0x6f, 0x6f], true), ([1], true), ([1], true)]).parserEvents ≤ 1 ∧
    (1 ≤ errCount (MessageParser.runCalls (MessageParser.new true)
        [([0x0c, 0x03, 0x66, 0x6f, 0x6f], true), ([1], true), ([1], true)]).parserEvents →
      (MessageParser.runCalls (MessageParser.new true)
        [([0x0c, 0x03, 0x66, 0x6f, 0x6f], true), ([1], true), ([1], true)]).noMoreData = true) :=
  at_most_one_parsing_error true
    [([0x0c, 0x03, 0x66, 0x6f, 0x6f], true), ([1], true), ([1], true)]
